import Mathlib

/-!
Verification development for the FBX node-tree emitter (`fbx_direct`).

The Rust source is shallowly embedded: the output sink (`std::io::Write`)
is modelled as a `String` accumulator threaded through every operation
(sequential `write_all`/`write_fmt` calls become string appends, which
always succeed in the model); the emitter's `Vec<(bool, bool)>` stack is
a `List (Bool × Bool)` whose HEAD is the top of the stack (the `Vec`'s
last element); `u32` version numbers are `Nat`; Rust's `{}` formatting of
signed integers is `toString` on `Int` (identical decimal text), and of
floats is `toString` on `Float` (no claim depends on float text).
A Rust panic (`Option::unwrap` on `None`) is modelled as the `none`
result of the operation, produced before any write to the sink.
-/

/-- The property data model (`common::Property`): a tagged value attached
to a node.  Byte buffers are lists of byte values (< 256). -/
inductive Property where
  | Bool : Bool → Property
  | I16 : Int → Property
  | I32 : Int → Property
  | I64 : Int → Property
  | F32 : Float → Property
  | F64 : Float → Property
  | VecBool : List Bool → Property
  | VecI32 : List Int → Property
  | VecI64 : List Int → Property
  | VecF32 : List Float → Property
  | VecF64 : List Float → Property
  | String : String → Property
  | Binary : List Nat → Property

/-- Modelled from the spec: the writer-side error type lives in the
module `writer::error`, whose file is not under `src/`; only the
constructors applied at the emission call sites are visible
(`Error::UnsupportedFbxVersion(ver)` in `ascii.rs`, `Error::Unimplemented(msg)`
in `binary.rs`), matching the spec's error taxonomy entries
"Unsupported-version — carries the offending version value" and
"Unimplemented — carries a descriptive message".  Only the variants the
emitters construct are modelled. -/
inductive WriterError where
  | UnsupportedFbxVersion : Nat → WriterError
  | Unimplemented : String → WriterError
deriving Repr, DecidableEq

/-- `fn indent(sink, depth)`: writes `depth` tab characters. -/
def indent (depth : Nat) : String :=
  String.mk (List.replicate depth '\t')

/-- The per-character escape of the `Property::String` arm of
`print_property`: `"` ↦ `&quot;`, LF ↦ `&lf;`, CR ↦ `&cr;`, and every
other character is written verbatim. -/
def escapeChar (c : Char) : String :=
  match c with
  | '"' => "&quot;"
  | '\n' => "&lf;"
  | '\r' => "&cr;"
  | other => String.singleton other

/-- The `for c in v.chars()` loop of the `Property::String` arm:
each character's escape appended in order. -/
def escapeFold : List Char → String
  | [] => ""
  | c :: rest => escapeChar c ++ escapeFold rest

/-- Escape a whole string (the text written between the two quote
characters for a `Property::String`). -/
def escapeString (v : String) : String :=
  escapeFold v.data

/-- The standard base64 alphabet used by the `base64` crate's default
`encode` (modelled here since the crate is an external dependency). -/
def base64Digit (n : Nat) : Char :=
  "ABCDEFGHIJKLMNOPQRSTUVWXYZabcdefghijklmnopqrstuvwxyz0123456789+/".data.getD n '='

/-- Standard base64 with `=` padding, as produced by `base64::encode`. -/
def base64encode : List Nat → String
  | [] => ""
  | [b0] =>
    String.mk [base64Digit (b0 / 4), base64Digit (b0 % 4 * 16)] ++ "=="
  | [b0, b1] =>
    String.mk [base64Digit (b0 / 4), base64Digit (b0 % 4 * 16 + b1 / 16),
      base64Digit (b1 % 16 * 4)] ++ "="
  | b0 :: b1 :: b2 :: rest =>
    String.mk [base64Digit (b0 / 4), base64Digit (b0 % 4 * 16 + b1 / 16),
      base64Digit (b1 % 16 * 4 + b2 / 64), base64Digit (b2 % 64)] ++ base64encode rest

/-- The `for v in iter` tail of the element loops in `print_property` and
`emit_start_node`: every remaining element prefixed by the separator. -/
def joinRest (sep : String) (f : α → String) : List α → String
  | [] => ""
  | y :: rest => sep ++ f y ++ joinRest sep f rest

/-- The element loop shared by the array arms of `print_property`
(the `generic_vec_print!` macro body and the `VecBool` arm) and the
property-list loop of `emit_start_node`: the first element is written
bare, each later element prefixed by the separator. -/
def joinSep (sep : String) (f : α → String) : List α → String
  | [] => ""
  | x :: rest => f x ++ joinRest sep f rest

/-- The boolean element token of the `VecBool` arm:
`if v { b"Y" } else { b"T" }`. -/
def boolToken (b : Bool) : String :=
  if b then "Y" else "T"

/-- The array wrapper of `print_property`
(`*<len> {\n<indent>a: v0,v1,...\n<indent-1>}`), shared by the
`generic_vec_print!` macro and the `VecBool` arm, parameterised by the
per-element formatter. -/
def print_vec (f : α → String) (vec : List α) (prop_depth : Nat) : String :=
  "*" ++ toString vec.length ++ " \x7b\n" ++ indent prop_depth ++ "a: "
    ++ joinSep "," f vec ++ "\n" ++ indent (prop_depth - 1) ++ "\x7d"

/-- `fn print_property(sink, property, prop_depth)`: the text appended to
the sink for one property.  (The source's `assert!(prop_depth > 0)` is a
precondition; every call site passes the stack depth after the push,
which is at least 1.) -/
def print_property (property : Property) (prop_depth : Nat) : String :=
  match property with
  | .Bool false => "T"
  | .Bool true => "Y"
  | .I16 v => toString v
  | .I32 v => toString v
  | .I64 v => toString v
  | .F32 v => toString v
  | .F64 v => toString v
  | .VecBool vec => print_vec boolToken vec prop_depth
  | .VecI32 vec => print_vec toString vec prop_depth
  | .VecI64 vec => print_vec toString vec prop_depth
  | .VecF32 vec => print_vec toString vec prop_depth
  | .VecF64 vec => print_vec toString vec prop_depth
  | .String v => "\"" ++ escapeString v ++ "\""
  | .Binary v => "\"" ++ base64encode v ++ "\""

/-- `struct AsciiEmitter { prop_child_existence: Vec<(bool, bool)> }`.
List head = top of the stack (= last element of the `Vec`); each record
is (has-properties, has-emitted-child) for one open node. -/
structure AsciiEmitter where
  prop_child_existence : List (Bool × Bool)
deriving Repr, DecidableEq

/-- `AsciiEmitter::new()`. -/
def AsciiEmitter.new : AsciiEmitter :=
  ⟨[]⟩

/-- `AsciiEmitter::emit_start_fbx(sink, ver)`: version window check, then
the header line `; FBX <major>.<minor>.<revision> project file`.
Returns the emitter result paired with the sink contents after the call. -/
def AsciiEmitter.emit_start_fbx (e : AsciiEmitter) (sink : String) (ver : Nat) :
    Except WriterError AsciiEmitter × String :=
  if ver < 7000 ∨ 8000 ≤ ver then
    (Except.error (WriterError.UnsupportedFbxVersion ver), sink)
  else
    let major := ver / 1000
    let minor := ver % 1000
    let minor2 := minor / 100
    let revision := minor % 100
    (Except.ok e,
      sink ++ "; FBX " ++ toString major ++ "." ++ toString minor2 ++ "."
        ++ toString revision ++ " project file\n")

/-- `AsciiEmitter::emit_end_fbx(sink)`: a no-op. -/
def AsciiEmitter.emit_end_fbx (e : AsciiEmitter) (sink : String) :
    AsciiEmitter × String :=
  (e, sink)

/-- The property-list loop of `emit_start_node`: first property bare,
each later one prefixed by `", "`. -/
def props_text (properties : List Property) (prop_depth : Nat) : String :=
  joinSep ", " (fun p => print_property p prop_depth) properties

/-- `AsciiEmitter::emit_start_node(sink, name, properties)`:
pop the parent record (if any), write the parent's opening brace if this
is its first child, push the parent back with its has-emitted-child flag
set, write the indentation, push the new node's record, write
`<name>: ` and the comma-separated properties. -/
def AsciiEmitter.emit_start_node (e : AsciiEmitter) (sink : String)
    (name : String) (properties : List Property) : AsciiEmitter × String :=
  let popped :=
    match e.prop_child_existence with
    | [] => ([], sink)
    | (prop_exist, child_exist) :: rest =>
      let sink1 := if !child_exist then sink ++ " \x7b\n" else sink
      ((prop_exist, true) :: rest, sink1)
  let stack1 := popped.1
  let sink2 := popped.2 ++ indent stack1.length
  let stack2 := (!properties.isEmpty, false) :: stack1
  let sink3 := sink2 ++ name ++ ": "
  let prop_depth := stack2.length
  (⟨stack2⟩, sink3 ++ props_text properties prop_depth)

/-- `AsciiEmitter::emit_end_node(sink)`: pop the top record
(`.pop().unwrap()` — on an empty stack this panics before any write,
modelled as the `none` result with the sink untouched), then write the
terminal shape decided by the (has-properties, has-emitted-child) pair. -/
def AsciiEmitter.emit_end_node (e : AsciiEmitter) (sink : String) :
    Option AsciiEmitter × String :=
  match e.prop_child_existence with
  | [] => (none, sink)
  | (prop_exist, child_exist) :: rest =>
    let sink1 :=
      if !prop_exist || child_exist then
        (if !prop_exist && !child_exist then sink ++ " \x7b\n" else sink)
          ++ indent rest.length ++ "\x7d\n"
      else
        sink ++ "\n"
    (some ⟨rest⟩, sink1)

/-- Rust's `str::lines()`: split on `\n`, drop a final empty piece
produced by a trailing `\n`, and strip one trailing `\r` from each line. -/
def rustLines (s : String) : List String :=
  if s = "" then []
  else
    let parts := s.splitOn "\n"
    let parts1 := if s.endsWith "\n" then parts.dropLast else parts
    parts1.map (fun l => if l.endsWith "\r" then l.dropRight 1 else l)

/-- `AsciiEmitter::emit_comment(sink, comment)`: each line of the comment
indented to the current depth and terminated by `\n`; the node stack is
not touched. -/
def AsciiEmitter.emit_comment (e : AsciiEmitter) (sink : String)
    (comment : String) : AsciiEmitter × String :=
  (e, (rustLines comment).foldl
    (fun acc line => acc ++ indent e.prop_child_existence.length ++ line ++ "\n")
    sink)

/-- `struct BinaryEmitter { version, pos, end_offset_pos_stack }`. -/
structure BinaryEmitter where
  version : Nat
  pos : Nat
  end_offset_pos_stack : List Nat
deriving Repr, DecidableEq

/-- `BinaryEmitter::new(version)`. -/
def BinaryEmitter.new (version : Nat) : BinaryEmitter :=
  ⟨version, 0, []⟩

/-- `BinaryEmitter::emit_start_fbx(sink, ver)`: unconditionally
`Err(Error::Unimplemented(..))`, with no write to the sink. -/
def BinaryEmitter.emit_start_fbx (e : BinaryEmitter) (sink : String)
    (ver : Nat) : Except WriterError BinaryEmitter × String :=
  (Except.error (WriterError.Unimplemented
    "BinaryEmitter::emit_start_fbx() is unimplemented yet"), sink)

/-- The update `emit_start_node` applies to the parent's stack record:
the has-emitted-child flag of the top record becomes `true`. -/
def mark_child : List (Bool × Bool) → List (Bool × Bool)
  | [] => []
  | (prop_exist, _) :: rest => (prop_exist, true) :: rest

/-- The text `emit_start_node` writes for the parent before the new
node's own line: the parent's opening brace, exactly when the parent
exists and has not yet emitted a child. -/
def parent_brace : List (Bool × Bool) → String
  | [] => ""
  | (_, child_exist) :: _ => if !child_exist then " \x7b\n" else ""

/-- List-of-characters view of `escapeFold`. -/
def escapeData : List Char → List Char
  | [] => []
  | c :: rest => (escapeChar c).data ++ escapeData rest

/-- Decoder inverting `escapeData` on ampersand-free inputs (used to show
the escaping is injective there). -/
def unesc : List Char → List Char
  | [] => []
  | c :: rest =>
    if c = '&' then
      match rest with
      | 'q' :: 'u' :: 'o' :: 't' :: ';' :: r => '"' :: unesc r
      | 'l' :: 'f' :: ';' :: r => '\n' :: unesc r
      | 'c' :: 'r' :: ';' :: r => '\r' :: unesc r
      | r => '&' :: unesc r
    else
      c :: unesc rest

/-- Modelled from the spec: "renders a boolean array element-wise with
the same Y/T tokens comma-separated" — the comma-separated Y/T token
list, transcribed from the spec's words for comparison with the source's
element loop. -/
def yt_tokens : List Bool → String
  | [] => ""
  | b :: rest =>
    (if b then "Y" else "T")
      ++ (if rest.isEmpty then "" else "," ++ yt_tokens rest)

theorem mark_child_length (l : List (Bool × Bool)) : (mark_child l).length = l.length := by
  cases l with
  | nil => rfl
  | cons hd rest => obtain ⟨p, c⟩ := hd; rfl

theorem escapeFold_data (l : List Char) : (escapeFold l).data = escapeData l := by
  induction l with
  | nil => rfl
  | cons c rest ih => simp [escapeFold, escapeData, ih]

theorem escapeChar_other (c : Char) (h1 : c ≠ '"') (h2 : c ≠ '\n') (h3 : c ≠ '\r') :
    escapeChar c = String.singleton c := by
  unfold escapeChar
  split <;> simp_all

theorem unesc_escapeData (l : List Char) (h : '&' ∉ l) : unesc (escapeData l) = l := by
  induction l with
  | nil => rfl
  | cons c rest ih =>
    have hc : c ≠ '&' := fun e => h (e ▸ List.mem_cons_self c rest)
    have hrest : '&' ∉ rest := fun m => h (List.mem_cons_of_mem _ m)
    by_cases h1 : c = '"'
    · subst h1
      have step : escapeData ('"' :: rest) = '&' :: 'q' :: 'u' :: 'o' :: 't' :: ';' :: escapeData rest := rfl
      have step2 : unesc ('&' :: 'q' :: 'u' :: 'o' :: 't' :: ';' :: escapeData rest)
          = '"' :: unesc (escapeData rest) := rfl
      rw [step, step2, ih hrest]
    · by_cases h2 : c = '\n'
      · subst h2
        have step : escapeData ('\n' :: rest) = '&' :: 'l' :: 'f' :: ';' :: escapeData rest := rfl
        have step2 : unesc ('&' :: 'l' :: 'f' :: ';' :: escapeData rest)
            = '\n' :: unesc (escapeData rest) := rfl
        rw [step, step2, ih hrest]
      · by_cases h3 : c = '\r'
        · subst h3
          have step : escapeData ('\r' :: rest) = '&' :: 'c' :: 'r' :: ';' :: escapeData rest := rfl
          have step2 : unesc ('&' :: 'c' :: 'r' :: ';' :: escapeData rest)
              = '\r' :: unesc (escapeData rest) := rfl
          rw [step, step2, ih hrest]
        · have hesc : escapeChar c = String.singleton c := escapeChar_other c h1 h2 h3
          have step : escapeData (c :: rest) = c :: escapeData rest := by
            simp [escapeData, hesc, String.singleton]
          have step2 : unesc (c :: escapeData rest) = c :: unesc (escapeData rest) := by
            rw [unesc.eq_def]
            simp [hc]
          rw [step, step2, ih hrest]

theorem joinRest_comma (l : List Bool) :
    joinRest "," boolToken l = if l.isEmpty then "" else "," ++ joinSep "," boolToken l := by
  cases l with
  | nil => rfl
  | cons y r => simp [joinRest, joinSep, String.append_assoc]

theorem joinSep_comma_yt (l : List Bool) : joinSep "," boolToken l = yt_tokens l := by
  induction l with
  | nil => rfl
  | cons b rest ih =>
    rw [show joinSep "," boolToken (b :: rest) = boolToken b ++ joinRest "," boolToken rest from rfl,
      joinRest_comma rest, ih]
    rfl

/-- Claim C1: for every node with at least one child, the ASCII emitter
writes the node's opening brace exactly once — as the brace-and-newline
prefix of the first child's `emit_start_node` call, taken when the
parent's has-emitted-child flag is still `false` — and that call flips
the flag to `true`, so a later child's `emit_start_node` (flag `true`)
writes no such prefix; the node's own start wrote no brace (it only
pushed the record `(has-properties, false)` and wrote `<name>: ` plus
properties). -/
theorem ascii_parent_brace_once_at_first_child (p : Bool)
    (rest : List (Bool × Bool)) (sink name : String) (props : List Property) :
    AsciiEmitter.emit_start_node ⟨(p, false) :: rest⟩ sink name props
      = (⟨(!props.isEmpty, false) :: (p, true) :: rest⟩,
         sink ++ " \x7b\n" ++ indent (rest.length + 1) ++ name ++ ": "
           ++ props_text props (rest.length + 2))
    ∧ AsciiEmitter.emit_start_node ⟨(p, true) :: rest⟩ sink name props
      = (⟨(!props.isEmpty, false) :: (p, true) :: rest⟩,
         sink ++ indent (rest.length + 1) ++ name ++ ": "
           ++ props_text props (rest.length + 2)) :=
  ⟨rfl, rfl⟩

/-- Claim C2: the terminal output of `emit_end_node` on an open node is
fully determined by the popped (has-properties, has-emitted-child) pair:
(false, false) renders the empty braces ` \x7b\n<indent>\x7d\n`,
(true, false) renders the bare line terminator `\n` with no braces, and
any node whose child flag is `true` renders exactly the closing brace on
its own indented line. -/
theorem ascii_end_node_terminal_shapes (rest : List (Bool × Bool)) (sink : String) :
    AsciiEmitter.emit_end_node ⟨(false, false) :: rest⟩ sink
      = (some ⟨rest⟩, sink ++ " \x7b\n" ++ indent rest.length ++ "\x7d\n")
    ∧ AsciiEmitter.emit_end_node ⟨(true, false) :: rest⟩ sink
      = (some ⟨rest⟩, sink ++ "\n")
    ∧ (∀ prop_exist : Bool,
        AsciiEmitter.emit_end_node ⟨(prop_exist, true) :: rest⟩ sink
          = (some ⟨rest⟩, sink ++ indent rest.length ++ "\x7d\n")) := by
  refine ⟨rfl, rfl, fun prop_exist => ?_⟩
  cases prop_exist <;> rfl

/-- Claim C3: `emit_end_node` with no node open (empty stack) fails —
the source's `pop().unwrap()` panics, modelled as the `none` result —
and the sink is untouched: nothing is written. -/
theorem ascii_end_node_empty_stack_fails (sink : String) :
    AsciiEmitter.emit_end_node ⟨[]⟩ sink = (none, sink) :=
  rfl

/-- Claim C4: `emit_start_fbx` succeeds exactly for versions in
[7000, 8000); outside that window it fails with the unsupported-version
error carrying the offending version; on success the header line
decomposes the version as major = v / 1000, minor = (v % 1000) / 100,
revision = (v % 1000) % 100. -/
theorem ascii_start_fbx_version_window (e : AsciiEmitter) (sink : String)
    (v : Nat) (hv : v < 4294967296) :
    ((AsciiEmitter.emit_start_fbx e sink v).1.isOk = true ↔ 7000 ≤ v ∧ v < 8000)
    ∧ (v < 7000 ∨ 8000 ≤ v →
        AsciiEmitter.emit_start_fbx e sink v
          = (Except.error (WriterError.UnsupportedFbxVersion v), sink))
    ∧ (7000 ≤ v → v < 8000 →
        AsciiEmitter.emit_start_fbx e sink v
          = (Except.ok e,
             sink ++ "; FBX " ++ toString (v / 1000) ++ "."
               ++ toString (v % 1000 / 100) ++ "." ++ toString (v % 1000 % 100)
               ++ " project file\n")) := by
  refine ⟨?_, fun h => ?_, fun h1 h2 => ?_⟩
  · unfold AsciiEmitter.emit_start_fbx
    split
    · rename_i h
      simp only [Except.isOk, Except.toBool]
      constructor
      · intro hcontra
        exact absurd hcontra (by simp)
      · intro hrange
        omega
    · rename_i h
      simp only [Except.isOk, Except.toBool]
      constructor
      · intro _
        omega
      · intro _
        trivial
  · unfold AsciiEmitter.emit_start_fbx
    rw [if_pos h]
  · unfold AsciiEmitter.emit_start_fbx
    rw [if_neg (by omega)]

/-- Witness for C4 at version 7400: the header is
`; FBX 7.4.0 project file` (major 7, minor 4, revision 0). -/
theorem ascii_start_fbx_version_window_witness :
    AsciiEmitter.emit_start_fbx ⟨[]⟩ "" 7400
      = (Except.ok ⟨[]⟩, "; FBX 7.4.0 project file\n") := by
  have h := (ascii_start_fbx_version_window ⟨[]⟩ "" 7400 (by norm_num)).2.2
    (by norm_num) (by norm_num)
  rw [h]
  rfl

/-- Claim C5: whenever `emit_start_fbx` rejects the version, the sink is
exactly what it was before the call — the check precedes every write. -/
theorem ascii_start_fbx_rejected_writes_nothing (e : AsciiEmitter)
    (sink : String) (v : Nat) (h : v < 7000 ∨ 8000 ≤ v) :
    AsciiEmitter.emit_start_fbx e sink v
      = (Except.error (WriterError.UnsupportedFbxVersion v), sink) := by
  unfold AsciiEmitter.emit_start_fbx
  rw [if_pos h]

/-- Witness for C5 at version 9000 with a non-empty sink. -/
theorem ascii_start_fbx_rejected_writes_nothing_witness :
    AsciiEmitter.emit_start_fbx ⟨[]⟩ "abc" 9000
      = (Except.error (WriterError.UnsupportedFbxVersion 9000), "abc") :=
  ascii_start_fbx_rejected_writes_nothing ⟨[]⟩ "abc" 9000 (Or.inr (by norm_num))

/-- Claim C6: the ASCII property encoder renders boolean `true` as the
single character `Y` and `false` as the single character `T` at every
property depth; a boolean array renders element-wise with the same Y/T
tokens comma-separated inside the `*<count> \x7b a: ... \x7d` wrapper;
in particular `[true, false, true]` renders as `*3 \x7b a: Y,T,Y \x7d`
(with the wrapper's newlines and indentation). -/
theorem ascii_bool_tokens_yt (d : Nat) :
    print_property (Property.Bool true) d = "Y"
    ∧ print_property (Property.Bool false) d = "T"
    ∧ (∀ l : List Bool, print_property (Property.VecBool l) d
        = "*" ++ toString l.length ++ " \x7b\n" ++ indent d ++ "a: "
          ++ yt_tokens l ++ "\n" ++ indent (d - 1) ++ "\x7d")
    ∧ print_property (Property.VecBool [true, false, true]) 1
        = "*3 \x7b\n\ta: Y,T,Y\n\x7d" := by
  refine ⟨rfl, rfl, fun l => ?_, by decide⟩
  show print_vec boolToken l d = _
  unfold print_vec
  rw [joinSep_comma_yt l]

/-- Counterexample to claim C7 as stated: the escaping is not injective —
the six-character input `&quot;` (which contains none of the three
special characters, so it passes through verbatim) escapes to the same
output as the one-character input `"`. -/
theorem ascii_escape_collision :
    escapeString "&quot;" = escapeString "\""
    ∧ ("&quot;" : String) ≠ "\"" := by
  constructor
  · rfl
  · decide

/-- Claim C7 (amended): the escaping is total and per-character — each
double-quote, line-feed and carriage-return is replaced by `&quot;`,
`&lf;`, `&cr;` respectively, every other character passes through
verbatim, and the string property renders as the escaped text wrapped in
double quotes; the escaping is injective on inputs containing no `&`
character (though not on all strings, by `ascii_escape_collision`). -/
theorem ascii_escape_per_char_and_injective_on_amp_free :
    (escapeChar '"' = "&quot;" ∧ escapeChar '\n' = "&lf;" ∧ escapeChar '\r' = "&cr;")
    ∧ (∀ c : Char, c ≠ '"' → c ≠ '\n' → c ≠ '\r' → escapeChar c = String.singleton c)
    ∧ (∀ s : String, ∀ d : Nat,
        print_property (Property.String s) d = "\"" ++ escapeString s ++ "\"")
    ∧ (∀ s t : String, '&' ∉ s.data → '&' ∉ t.data →
        escapeString s = escapeString t → s = t) := by
  refine ⟨⟨rfl, rfl, rfl⟩, escapeChar_other, fun s d => rfl, fun s t hs ht h => ?_⟩
  have h2 : escapeData s.data = escapeData t.data := by
    have h3 := congrArg String.data h
    rwa [escapeString, escapeString, escapeFold_data, escapeFold_data] at h3
  have h4 := congrArg unesc h2
  rw [unesc_escapeData s.data hs, unesc_escapeData t.data ht] at h4
  exact String.ext h4

/-- Witness for C7 (amended) at concrete inputs: the pass-through case
at `x` and the injectivity case at the ampersand-free string `ab`. -/
theorem ascii_escape_per_char_witness :
    (('x' : Char) ≠ '"')
    ∧ escapeChar 'x' = String.singleton 'x'
    ∧ ('&' ∉ ("ab" : String).data)
    ∧ ("ab" : String) = "ab" := by
  refine ⟨by decide, ?_, by decide, ?_⟩
  · exact ascii_escape_per_char_and_injective_on_amp_free.2.1 'x'
      (by decide) (by decide) (by decide)
  · exact ascii_escape_per_char_and_injective_on_amp_free.2.2.2 "ab" "ab"
      (by decide) (by decide) rfl

/-- Claim C8: `emit_comment` leaves the node stack untouched — every
has-properties / has-emitted-child flag and the depth are unchanged —
so any `emit_start_node` / `emit_end_node` call after the comment
behaves exactly as if the comment had not happened. -/
theorem ascii_comment_structurally_inert (e : AsciiEmitter)
    (sink comment : String) :
    (AsciiEmitter.emit_comment e sink comment).1 = e
    ∧ (∀ sink2 name props,
        AsciiEmitter.emit_start_node (AsciiEmitter.emit_comment e sink comment).1
            sink2 name props
          = AsciiEmitter.emit_start_node e sink2 name props)
    ∧ (∀ sink2,
        AsciiEmitter.emit_end_node (AsciiEmitter.emit_comment e sink comment).1 sink2
          = AsciiEmitter.emit_end_node e sink2) :=
  ⟨rfl, fun _ _ _ => rfl, fun _ => rfl⟩

/-- Claim C9: the binary emitter's `emit_start_fbx` fails with the
unimplemented error kind for every version argument and every emitter
state, and writes nothing to the sink. -/
theorem binary_start_fbx_always_unimplemented (e : BinaryEmitter)
    (sink : String) (ver : Nat) :
    BinaryEmitter.emit_start_fbx e sink ver
      = (Except.error (WriterError.Unimplemented
          "BinaryEmitter::emit_start_fbx() is unimplemented yet"), sink) :=
  rfl

/-- Claim C10: `emit_start_node` performs no validation of the node
name: for every name, including the empty string, the call returns
(total, no error path — every sink write succeeds in the model), pushes
exactly one net stack record `(properties non-empty, false)`, and writes
the name verbatim followed by `: `; concretely, starting a node named
`""` at the top level appends exactly `: `. -/
theorem ascii_start_node_accepts_any_name (e : AsciiEmitter)
    (sink name : String) (props : List Property) :
    AsciiEmitter.emit_start_node e sink name props
      = (⟨(!props.isEmpty, false) :: mark_child e.prop_child_existence⟩,
         sink ++ parent_brace e.prop_child_existence
           ++ indent e.prop_child_existence.length ++ name ++ ": "
           ++ props_text props (e.prop_child_existence.length + 1))
    ∧ (AsciiEmitter.emit_start_node e sink name props).1.prop_child_existence.length
        = e.prop_child_existence.length + 1
    ∧ AsciiEmitter.emit_start_node ⟨[]⟩ "" "" [] = (⟨[(false, false)]⟩, ": ") := by
  obtain ⟨stack⟩ := e
  refine ⟨?_, ?_, by decide⟩
  · cases stack with
    | nil => simp [AsciiEmitter.emit_start_node, mark_child, parent_brace]
    | cons hd rest =>
      obtain ⟨p, c⟩ := hd
      cases c <;> simp [AsciiEmitter.emit_start_node, mark_child, parent_brace]
  · cases stack with
    | nil => rfl
    | cons hd rest =>
      obtain ⟨p, c⟩ := hd
      rfl
